import Mathlib

/-!
Verification development for the LockinEdge job-matching backend.

JavaScript strings are modelled as `List Char` (`JStr`); machine numbers
appearing in scores are modelled as `ℚ` (the heuristic scorer only adds
`1` and `0.5`, the LLM score is a JSON number).  Fallible platform calls
(HTTP fetch, JSON.parse) are modelled as explicit outcome values or
oracle functions, and the Postgres `matches` table as explicit state.
-/

namespace LockinEdge

/-! Model of the JavaScript string operations used by the backend. -/

abbrev JStr := List Char

/-- Model of `String.prototype.toLowerCase` (per-character lowering). -/
def jsToLower (s : JStr) : JStr := s.map Char.toLower

/-- Model of `String.prototype.includes`: the needle occurs contiguously. -/
def jsStrIncludes : JStr → JStr → Bool
  | [], needle => needle.isEmpty
  | a :: t, needle => needle.isPrefixOf (a :: t) || jsStrIncludes t needle

/-! Data model for the heuristic matching pipeline
(`src/src/db/schema.ts`, `src/src/types.ts`). -/

/-- Resume analysis as used by `matchJobsWithResume`: the `skills` field is
a `jsonb` value guarded by `Array.isArray` in the code, so it is modelled
as `Option (List JStr)` (`none` = not an array); `experience` is a JS
number whose truthiness test is `≠ 0`. -/
structure ResumeAnalysis where
  skills : Option (List JStr)
  experience : ℚ
deriving DecidableEq

/-- A persisted row of the `jobs` table (`schema.ts` lines 24-33). -/
structure Job where
  id : JStr
  title : JStr
  company : JStr
  location : Option JStr
  description : Option JStr
  skills : Option (List JStr)
deriving DecidableEq

/-- A stored resume as seen by the match route: `analysis` is a nullable
`jsonb` column. -/
structure Resume where
  id : JStr
  analysis : Option ResumeAnalysis
deriving DecidableEq

/-- A row of the `matches` table (`schema.ts` lines 36-42).  The `id`
column is a randomly generated primary key, modelled as a fresh `Nat`. -/
structure MatchRow where
  id : Nat
  resumeId : JStr
  jobId : JStr
  score : ℚ
deriving DecidableEq

/-- State of the `matches` table; `nextId` models the generator of fresh
(never previously used) primary keys. -/
structure MatchDB where
  nextId : Nat
  rows : List MatchRow
deriving DecidableEq

/-- Model of `db.insert(matches).values(...).onConflictDoNothing()`.
Postgres `ON CONFLICT DO NOTHING` skips the insert only when the new row
violates some declared uniqueness constraint.  The schema declares only
the primary key `id` for `matches` (no uniqueness on
`(resume_id, job_id)`), and `id` is freshly generated, so in this model a
conflict can only occur if the fresh key were already present. -/
def matchesInsertIgnore (db : MatchDB) (resumeId jobId : JStr) (score : ℚ) : MatchDB :=
  if db.rows.any fun r => r.id == db.nextId then
    { nextId := db.nextId + 1, rows := db.rows }
  else
    { nextId := db.nextId + 1, rows := db.rows ++ [⟨db.nextId, resumeId, jobId, score⟩] }

/-! The heuristic scorer (`jobs.service.ts`, `matchJobsWithResume`,
lines 83-105). -/

/-- One resume skill matches iff some job skill tag contains it as a
case-insensitive substring (`job.skills.some(jobSkill =>
jobSkill.toLowerCase().includes(resumeSkill.toLowerCase()))`). -/
def skillMatched (jskills : List JStr) (resumeSkill : JStr) : Bool :=
  jskills.any fun jobSkill => jsStrIncludes (jsToLower jobSkill) (jsToLower resumeSkill)

/-- The `+0.5` experience bonus condition: `resumeAnalysis.experience &&
job.description?.toLowerCase().includes('experience')`. -/
def expBonus (resumeAnalysis : ResumeAnalysis) (job : Job) : Bool :=
  (resumeAnalysis.experience != 0) &&
    match job.description with
    | some d => jsStrIncludes (jsToLower d) "experience".toList
    | none => false

/-- One step of the inner skill loop: `score += 1; matchedSkills.push(...)`
when the skill matches. -/
def scoreStep (jskills : List JStr) (acc : ℚ × List JStr) (resumeSkill : JStr) : ℚ × List JStr :=
  if skillMatched jskills resumeSkill then (acc.1 + 1, acc.2 ++ [resumeSkill]) else acc

/-- Per-job heuristic score and matched-skill list computed by the body of
the `for (const job of allJobs)` loop in `matchJobsWithResume`. -/
def scoreJob (resumeAnalysis : ResumeAnalysis) (job : Job) : ℚ × List JStr :=
  let base :=
    match job.skills, resumeAnalysis.skills with
    | some jskills, some rskills => rskills.foldl (scoreStep jskills) ((0 : ℚ), ([] : List JStr))
    | _, _ => ((0 : ℚ), ([] : List JStr))
  if expBonus resumeAnalysis job then (base.1 + 1 / 2, base.2) else base

/-- An entry of the in-memory `matchedJobs` result array. -/
structure MatchedJob where
  job : Job
  score : ℚ
  matchedSkills : List JStr
deriving DecidableEq

/-- One iteration of the job loop: when `score > 0`, persist the match row
(insert-or-ignore) and push the in-memory entry. -/
def matchStep (resumeId : JStr) (resumeAnalysis : ResumeAnalysis)
    (acc : List MatchedJob × MatchDB) (job : Job) : List MatchedJob × MatchDB :=
  let sc := scoreJob resumeAnalysis job
  if 0 < sc.1 then
    (acc.1 ++ [⟨job, sc.1, sc.2⟩], matchesInsertIgnore acc.2 resumeId job.id sc.1)
  else acc

/-- `matchJobsWithResume` (`jobs.service.ts` lines 72-126): iterate over
all stored jobs, score each one, persist matches with score `> 0`, and
return the in-memory list in job iteration order. -/
def matchJobsWithResume (resumeId : JStr) (resumeAnalysis : ResumeAnalysis)
    (allJobs : List Job) (db : MatchDB) : List MatchedJob × MatchDB :=
  allJobs.foldl (matchStep resumeId resumeAnalysis) ([], db)

/-- The entry produced for a job when and only when its score is
positive; `matchJobsWithResume` returns the `filterMap` of this. -/
def matchPick (resumeAnalysis : ResumeAnalysis) (job : Job) : Option MatchedJob :=
  let sc := scoreJob resumeAnalysis job
  if 0 < sc.1 then some ⟨job, sc.1, sc.2⟩ else none

/-! The `POST /jobs/match/:resumeId` route handler
(`src/dist/src/modules/jobs/jobs.route.js` lines 42-57). -/

def isHexDigit (c : Char) : Bool :=
  (decide ('0' ≤ c) && decide (c ≤ '9')) ||
  (decide ('a' ≤ c) && decide (c ≤ 'f')) ||
  (decide ('A' ≤ c) && decide (c ≤ 'F'))

/-- Checks hyphen-separated hex groups with the given lengths. -/
def uuidGroups : JStr → List Nat → Bool
  | s, [] => s.isEmpty
  | s, [n] => s.length == n && s.all isHexDigit
  | s, n :: m :: ns =>
    (s.take n).length == n && (s.take n).all isHexDigit &&
      match s.drop n with
      | '-' :: rest => uuidGroups rest (m :: ns)
      | _ => false

/-- Model of `z.string().uuid()` (`uuidSchema`): 8-4-4-4-12 hex digit
groups separated by hyphens, case-insensitive. -/
def isUuidV (s : JStr) : Bool := uuidGroups s [8, 4, 4, 4, 12]

/-- HTTP outcomes of the match route. -/
inductive MatchResponse where
  | badRequest (message : JStr)
  | notFound (message : JStr)
  | okJson (data : List MatchedJob)
deriving DecidableEq

/-- The scores of the returned match array (empty for error responses). -/
def respScores : MatchResponse → List ℚ
  | .okJson data => data.map (fun e => e.score)
  | _ => []

/-- The `jobController.post('/match/:resumeId')` handler: 400 for a
malformed id, 404 when the resume is absent, 400 when it has no
analysis, otherwise 200 with the result of `matchJobsWithResume`.
`lookupResume` models the `ResumeService.getResumeById` database read. -/
def matchRoute (resumeIdRaw : JStr) (lookupResume : JStr → Option Resume)
    (allJobs : List Job) (db : MatchDB) : MatchResponse × MatchDB :=
  if isUuidV resumeIdRaw then
    match lookupResume resumeIdRaw with
    | none => (.notFound "Resume not found".toList, db)
    | some r =>
      match r.analysis with
      | none => (.badRequest "Resume has not been analyzed yet.".toList, db)
      | some an =>
        let res := matchJobsWithResume r.id an allJobs db
        (.okJson res.1, res.2)
  else (.badRequest "Invalid resume ID".toList, db)

/-! Concrete sample data for the scenario parts of the claims. -/

def pythonResumeSkills : List JStr := ["Python".toList, "SQL".toList]

def pythonJobSkills : List JStr := ["Python".toList, "Django".toList]

/-- Resume profile of the spec scenario: skills `["Python","SQL"]`,
nonzero experience. -/
def pythonResume : ResumeAnalysis := ⟨some pythonResumeSkills, 4⟩

/-- Job of the spec scenario: skills `["Python","Django"]`, description
not containing the substring "experience". -/
def pythonJob : Job :=
  ⟨"job-1".toList, "Backend Developer".toList, "Acme".toList, none,
    some "Build APIs with Django".toList, some pythonJobSkills⟩

/-! The LLM-assisted recommendation pipeline
(`RecommendationService`, `src/unnamed/part_000`). -/

/-- Result shape of one LLM compatibility analysis. -/
structure CompatibilityResult where
  score : ℚ
  matchingSkills : List JStr
  missingSkills : List JStr
  reasoning : JStr
deriving DecidableEq

/-- The fallback returned by `analyzeJobCompatibility` on any failure. -/
def analysisFailed : CompatibilityResult := ⟨0, [], [], "Analysis failed".toList⟩

/-- JS whitespace test used by `String.prototype.trim` (the characters
that occur in this codebase). -/
def jsIsWS (c : Char) : Bool := c == ' ' || c == '\t' || c == '\n' || c == '\r'

/-- Model of `String.prototype.trim`. -/
def jsTrim (s : JStr) : JStr := ((s.dropWhile jsIsWS).reverse.dropWhile jsIsWS).reverse

/-- The literal of the regex `/^```json/`. -/
def fenceJson : JStr := ['\x60', '\x60', '\x60', 'j', 's', 'o', 'n']

/-- The literal of the regexes `/^```/` and `/```$/`. -/
def fence : JStr := ['\x60', '\x60', '\x60']

/-- Model of `content.replace(/^pre/, "")`: drop a leading occurrence. -/
def stripLeadIf (pre s : JStr) : JStr :=
  if pre.isPrefixOf s then s.drop pre.length else s

/-- Model of `content.replace(/suf$/, "")`: drop a trailing occurrence. -/
def stripTrailIf (suf s : JStr) : JStr :=
  if suf.isSuffixOf s then s.take (s.length - suf.length) else s

/-- The literal `"{}"` used as default content. -/
def emptyObject : JStr := ['\x7b', '\x7d']

/-- The content-cleaning chain of `analyzeJobCompatibility` (lines
147-149): `content?.trim() || "{}"`, then
`.replace(/^```json/, "").replace(/^```/, "").replace(/```$/, "").trim()`. -/
def cleanContent (content : JStr) : JStr :=
  let c0 := jsTrim content
  let c1 := if c0.isEmpty then emptyObject else c0
  jsTrim (stripTrailIf fence (stripLeadIf fence (stripLeadIf fenceJson c1)))

/-- Outcome of the outbound LLM HTTP call: a network failure (rejected
fetch), or an HTTP response with a status and the extracted
`choices[0].message.content` string. -/
inductive LLMResponse where
  | networkFailure
  | httpResponse (status : Nat) (content : JStr)
deriving DecidableEq

/-- Model of `Response.ok`: status in the 200-299 range. -/
def responseOk (status : Nat) : Bool := decide (200 ≤ status) && decide (status ≤ 299)

/-- `analyzeJobCompatibility` (lines 110-161) reduced to its
failure-handling structure: on a rejected call, a non-ok status, or a
`JSON.parse` failure the catch block returns `analysisFailed`; otherwise
the cleaned content is parsed.  `parse` is the oracle modelling the
platform `JSON.parse` composed with the result-shape reading. -/
def analyzeJobCompatibility (parse : JStr → Option CompatibilityResult)
    (resp : LLMResponse) : CompatibilityResult :=
  match resp with
  | .networkFailure => analysisFailed
  | .httpResponse status content =>
    if responseOk status then
      match parse (cleanContent content) with
      | some r => r
      | none => analysisFailed
    else analysisFailed

/-- The three failure modes of the LLM call: network failure, non-success
HTTP status, JSON-parse failure. -/
def llmCallFailed (parse : JStr → Option CompatibilityResult) (resp : LLMResponse) : Bool :=
  match resp with
  | .networkFailure => true
  | .httpResponse status content => !responseOk status || (parse (cleanContent content)).isNone

/-- An ephemeral scraped job posting (`RawJobPosting`). -/
structure RawJob where
  title : JStr
  company : JStr
  location : JStr
  description : JStr
  requirements : List JStr
  salary : Option JStr
  url : JStr
  source : JStr
  postedDate : JStr
deriving DecidableEq

/-- An entry of the final recommendation list (lines 181-194). -/
structure JobRecommendation where
  jobTitle : JStr
  company : JStr
  location : JStr
  description : JStr
  requirements : List JStr
  salary : Option JStr
  jobUrl : JStr
  source : JStr
  compatibilityScore : ℚ
  matchingSkills : List JStr
  missingSkills : List JStr
  reasoning : JStr
deriving DecidableEq

/-- The recommendation record pushed for a passing candidate. -/
def toRecommendation (job : RawJob) (c : CompatibilityResult) : JobRecommendation :=
  ⟨job.title, job.company, job.location, job.description, job.requirements,
    job.salary, job.url, job.source, c.score, c.matchingSkills, c.missingSkills, c.reasoning⟩

/-- The candidate loop of `generateRecommendations` (lines 178-196): each
scraped job is analyzed in turn and pushed iff its LLM score is `≥ 20`. -/
def recommendationCandidates (parse : JStr → Option CompatibilityResult)
    (llm : RawJob → LLMResponse) (jobs : List RawJob) : List JobRecommendation :=
  jobs.filterMap fun j =>
    let c := analyzeJobCompatibility parse (llm j)
    if 20 ≤ c.score then some (toRecommendation j c) else none

/-- The descending comparator `(a, b) => b.compatibilityScore - a.compatibilityScore`. -/
def scoreDescBy (a b : JobRecommendation) : Bool :=
  decide (b.compatibilityScore ≤ a.compatibilityScore)

/-- The tail of `generateRecommendations` (lines 198-200): analyze all
candidates, keep those with score `≥ 20`, sort by score descending and
keep the top 10. -/
def generateRecommendationsFromJobs (parse : JStr → Option CompatibilityResult)
    (llm : RawJob → LLMResponse) (jobs : List RawJob) : List JobRecommendation :=
  ((recommendationCandidates parse llm jobs).mergeSort scoreDescBy).take 10

/-- Outbound network activity of the recommendation pipeline. -/
inductive NetCall where
  | scrapeCall
  | llmCall (job : RawJob)
deriving DecidableEq

/-- `generateRecommendations` (lines 162-201) with its network effects
made explicit: the resume is looked up first and a missing resume or a
missing `analysis` throws "Resume not found or not analyzed" before any
outbound call; on the success path scraping runs once and the LLM is
called once per scraped job.  `scraped` is the oracle for the scrape
result and `llm` for the per-job LLM call. -/
def generateRecommendations (parse : JStr → Option CompatibilityResult)
    (resumeLookup : Option Resume) (scraped : List RawJob) (llm : RawJob → LLMResponse) :
    Except JStr (List JobRecommendation) × List NetCall :=
  match resumeLookup with
  | none => (.error "Resume not found or not analyzed".toList, [])
  | some r =>
    match r.analysis with
    | none => (.error "Resume not found or not analyzed".toList, [])
    | some _ =>
      (.ok (generateRecommendationsFromJobs parse llm scraped),
        .scrapeCall :: scraped.map .llmCall)

/-! The source adapters and the aggregator (`scrapeJobs`,
`scrapeIndeedJobs`, `scrapeRemoteOkJobs`, lines 9-100). -/

/-- Outcome of one adapter fetch: a thrown error or rejected call
(`netError`, caught by the adapter's catch block), a non-ok HTTP status
(`badStatus`, the `if (!response.ok) return []` branch), or a usable
body. -/
inductive Fetched (α : Type) where
  | netError
  | badStatus
  | okBody (body : α)

/-- True on the failure modes of a fetch. -/
def fetchFailed : Fetched α → Bool
  | .okBody _ => false
  | _ => true

/-- The fixed vocabulary of `extractRequirements` (lines 102-106). -/
def commonSkills : List JStr :=
  ["JavaScript", "TypeScript", "React", "Node.js", "Python", "Java", "C#",
    "Angular", "Vue.js", "Express", "Django", "MongoDB", "PostgreSQL", "MySQL",
    "AWS", "Docker", "Git", "REST", "GraphQL", "HTML", "CSS"].map String.toList

/-- Order-preserving first-occurrence deduplication (`[...new Set(found)]`). -/
def dedupAux [BEq α] : List α → List α → List α
  | _, [] => []
  | seen, a :: t => if seen.contains a then dedupAux seen t else a :: dedupAux (seen ++ [a]) t

/-- `extractRequirements`: vocabulary skills occurring case-insensitively
in the description, deduplicated preserving order. -/
def extractRequirements (description : JStr) : List JStr :=
  dedupAux [] (commonSkills.filter fun skill =>
    jsStrIncludes (jsToLower description) (jsToLower skill))

/-- One Indeed result card as extracted by the CSS-selector queries:
`.text()` of a missing selector is the empty string, a missing `href`
attribute is `none`. -/
structure IndeedElement where
  title : JStr
  company : JStr
  location : JStr
  description : JStr
  jobUrl : Option JStr
deriving DecidableEq

def httpPre : JStr := "http".toList

def indeedBase : JStr := "https://www.indeed.com".toList

/-- The per-element body of the Indeed scraper (lines 36-55): keep the
element only when title, company and url are all present; prefix relative
urls with the Indeed origin.  `postedDate` (`new Date().toISOString()`)
is modelled as the empty string. -/
def indeedElementJob (e : IndeedElement) : Option RawJob :=
  match e.jobUrl with
  | none => none
  | some u =>
    if e.title.isEmpty || e.company.isEmpty then none
    else
      some ⟨e.title, e.company, e.location, e.description, extractRequirements e.description,
        none, (if httpPre.isPrefixOf u then u else indeedBase ++ u), "Indeed".toList, []⟩

/-- `scrapeIndeedJobs` (lines 23-62): empty on any failure, otherwise the
extracted postings capped at 15 (`jobs.slice(0, 15)`). -/
def scrapeIndeedJobs (fetched : Fetched (List IndeedElement)) : List RawJob :=
  match fetched with
  | .okBody elements => (elements.filterMap indeedElementJob).take 15
  | _ => []

/-- One entry of the RemoteOK JSON feed; JS-falsy string fields are the
empty string, `salaryMin`/`salaryMax` are absent or a number (`0` is
falsy for the `salary_min && salary_max` test). -/
structure RemoteOkEntry where
  position : JStr
  company : JStr
  location : JStr
  description : JStr
  salaryMin : Option Nat
  salaryMax : Option Nat
  url : JStr
  date : JStr
deriving DecidableEq

def natDigits (n : Nat) : JStr := (toString n).toList

/-- The salary string `` `$${min} - $${max}` `` built when both bounds are
truthy. -/
def salaryText (e : RemoteOkEntry) : Option JStr :=
  match e.salaryMin, e.salaryMax with
  | some a, some b =>
    if a == 0 || b == 0 then none
    else some (('$' :: natDigits a) ++ " - $".toList ++ natDigits b)
  | _, _ => none

/-- The per-entry body of the RemoteOK scraper (lines 72-93): require
position and company, keep entries matching at least one query skill in
description or position, default the location to "Remote". -/
def remoteOkEntryJob (skills : List JStr) (e : RemoteOkEntry) : Option RawJob :=
  if e.position.isEmpty || e.company.isEmpty then none
  else if skills.any (fun sk =>
      jsStrIncludes (jsToLower e.description) (jsToLower sk) ||
      jsStrIncludes (jsToLower e.position) (jsToLower sk)) then
    some ⟨e.position, e.company, (if e.location.isEmpty then "Remote".toList else e.location),
      e.description, extractRequirements e.description, salaryText e, e.url,
      "RemoteOK".toList, e.date⟩
  else none

/-- `scrapeRemoteOkJobs` (lines 63-100): empty on any failure, otherwise
`data.slice(1, 16)` filtered and normalized. -/
def scrapeRemoteOkJobs (skills : List JStr) (fetched : Fetched (List RemoteOkEntry)) : List RawJob :=
  match fetched with
  | .okBody data => ((data.drop 1).take 15).filterMap (remoteOkEntryJob skills)
  | _ => []

/-- The aggregator `scrapeJobs` (lines 9-22): concatenates the two
adapters' results.  Each adapter catches its own failures and returns
`[]`, so the aggregate call always returns. -/
def scrapeJobs (skills : List JStr) (indeedFetched : Fetched (List IndeedElement))
    (remoteFetched : Fetched (List RemoteOkEntry)) : List RawJob :=
  scrapeIndeedJobs indeedFetched ++ scrapeRemoteOkJobs skills remoteFetched

/-! Concrete inputs used to instantiate the theorems. -/

/-- A well-formed resume id. -/
def cRid : JStr := "11111111-1111-1111-1111-111111111111".toList

def cAnalysis : ResumeAnalysis := ⟨some [['p'], ['q']], 0⟩

def cResume : Resume := ⟨cRid, some cAnalysis⟩

def cLookup : JStr → Option Resume := fun i => if i = cRid then some cResume else none

/-- Scores 1 against `cAnalysis` (only the skill `p` matches). -/
def cJobA : Job := ⟨['a'], ['t'], ['c'], none, none, some [['p']]⟩

/-- Scores 2 against `cAnalysis` (both skills match). -/
def cJobB : Job := ⟨['b'], ['t'], ['c'], none, none, some [['p'], ['q']]⟩

def cJobs : List Job := [cJobA, cJobB]

/-- A second well-formed resume id, for the idempotence experiment. -/
def dRid : JStr := "aaaaaaaa-aaaa-aaaa-aaaa-aaaaaaaaaaaa".toList

def dupAnalysis : ResumeAnalysis := ⟨some [['p']], 0⟩

def dupResume : Resume := ⟨dRid, some dupAnalysis⟩

def dLookup : JStr → Option Resume := fun i => if i = dRid then some dupResume else none

/-- Scores 1 against `dupAnalysis`. -/
def dupJob : Job := ⟨['j'], ['t'], ['c'], none, none, some [['p']]⟩

/-- A parse oracle that always fails. -/
def parseNone : JStr → Option CompatibilityResult := fun _ => none

/-- An LLM oracle whose calls all fail at the network level. -/
def llmNetFail : RawJob → LLMResponse := fun _ => .networkFailure

/-- An LLM oracle whose calls all return HTTP 500. -/
def llm500 : RawJob → LLMResponse := fun _ => .httpResponse 500 []

def sampleRawJob : RawJob :=
  ⟨"Dev".toList, "Acme".toList, "Remote".toList, "desc".toList, [], none,
    "u".toList, "Indeed".toList, []⟩

/-- A sample unfenced JSON document (`{"score": 41}`). -/
def sampleDoc : JStr := "\x7b\"score\": 41\x7d".toList

/-- Number of entries of the resume's skill list (0 when the `jsonb`
value is not an array). -/
def skillListLength (resumeAnalysis : ResumeAnalysis) : Nat :=
  match resumeAnalysis.skills with
  | some l => l.length
  | none => 0

/-- A resume profile with an empty skill list and nonzero experience. -/
def emptyAnalysis : ResumeAnalysis := ⟨some [], 2⟩

/-! Helper lemmas about the heuristic scorer. -/

theorem scoreFold_spec (jskills : List JStr) (rskills : List JStr) :
    ∀ acc : ℚ × List JStr,
      rskills.foldl (scoreStep jskills) acc =
        (acc.1 + ((rskills.filter (skillMatched jskills)).length : ℚ),
          acc.2 ++ rskills.filter (skillMatched jskills)) := by
  induction rskills with
  | nil => intro acc; simp
  | cons rs t ih =>
    intro acc
    by_cases h : skillMatched jskills rs
    · simp only [List.foldl_cons, scoreStep, h, if_true, ih, List.filter_cons_of_pos,
        List.length_cons, Prod.mk.injEq]
      constructor
      · push_cast; ring
      · simp
    · simp only [List.foldl_cons, scoreStep, h, if_false, ih,
        List.filter_cons_of_neg (by simpa using h)]
      simp

theorem scoreJob_eq (resumeAnalysis : ResumeAnalysis) (job : Job)
    (jskills rskills : List JStr) (hj : job.skills = some jskills)
    (hr : resumeAnalysis.skills = some rskills) :
    scoreJob resumeAnalysis job =
      (((rskills.filter (skillMatched jskills)).length : ℚ) +
          (if expBonus resumeAnalysis job = true then (1 : ℚ) / 2 else 0),
        rskills.filter (skillMatched jskills)) := by
  simp only [scoreJob, hj, hr]
  rw [scoreFold_spec]
  by_cases h : expBonus resumeAnalysis job <;> simp [h]

theorem scoreJob_skillsNone (resumeAnalysis : ResumeAnalysis) (job : Job)
    (h : job.skills = none ∨ resumeAnalysis.skills = none) :
    scoreJob resumeAnalysis job =
      ((if expBonus resumeAnalysis job = true then (1 : ℚ) / 2 else 0), []) := by
  rcases h with h | h
  · by_cases hb : expBonus resumeAnalysis job <;> simp [scoreJob, h, hb]
  · by_cases hb : expBonus resumeAnalysis job <;>
      cases hj : job.skills <;> simp [scoreJob, h, hj, hb]

theorem matchFold_fst (resumeId : JStr) (resumeAnalysis : ResumeAnalysis) :
    ∀ (allJobs : List Job) (acc : List MatchedJob × MatchDB),
      (allJobs.foldl (matchStep resumeId resumeAnalysis) acc).1 =
        acc.1 ++ allJobs.filterMap (matchPick resumeAnalysis) := by
  intro allJobs
  induction allJobs with
  | nil => intro acc; simp
  | cons j t ih =>
    intro acc
    by_cases h : 0 < (scoreJob resumeAnalysis j).1 <;>
      simp [List.foldl_cons, matchStep, List.filterMap_cons, matchPick, h, ih]

theorem matchJobsWithResume_fst (resumeId : JStr) (resumeAnalysis : ResumeAnalysis)
    (allJobs : List Job) (db : MatchDB) :
    (matchJobsWithResume resumeId resumeAnalysis allJobs db).1 =
      allJobs.filterMap (matchPick resumeAnalysis) := by
  unfold matchJobsWithResume
  rw [matchFold_fst]
  simp

/-- C1: for every persisted job and resume profile the heuristic score is
`+1` per resume skill contained case-insensitively in some job skill tag
(that skill being recorded as matched), plus `+0.5` when the experience
is nonzero and the description contains "experience"; in particular for
resume skills `["Python","SQL"]` against job skills `["Python","Django"]`
with a description without "experience" the score is 1 and the matched
skills are `["Python"]`. -/
theorem heuristic_score_formula (resumeAnalysis : ResumeAnalysis) (job : Job)
    (jskills rskills : List JStr) (hj : job.skills = some jskills)
    (hr : resumeAnalysis.skills = some rskills) :
    scoreJob resumeAnalysis job =
        (((rskills.filter (skillMatched jskills)).length : ℚ) +
            (if expBonus resumeAnalysis job = true then (1 : ℚ) / 2 else 0),
          rskills.filter (skillMatched jskills)) ∧
      scoreJob pythonResume pythonJob = (1, ["Python".toList]) := by
  refine ⟨scoreJob_eq resumeAnalysis job jskills rskills hj hr, ?_⟩
  have hf : pythonResumeSkills.filter (skillMatched pythonJobSkills) = ["Python".toList] := by
    decide
  have hb : expBonus pythonResume pythonJob = false := by decide
  rw [scoreJob_eq pythonResume pythonJob pythonJobSkills pythonResumeSkills rfl rfl, hf, hb]
  norm_num

/-- Witness for `heuristic_score_formula` at the scenario input. -/
theorem heuristic_score_formula_check :
    scoreJob pythonResume pythonJob =
      (((pythonResumeSkills.filter (skillMatched pythonJobSkills)).length : ℚ) +
          (if expBonus pythonResume pythonJob = true then (1 : ℚ) / 2 else 0),
        pythonResumeSkills.filter (skillMatched pythonJobSkills)) :=
  (heuristic_score_formula pythonResume pythonJob pythonJobSkills pythonResumeSkills
    rfl rfl).1

/-- C10: the heuristic score never exceeds the number of resume skill
entries plus `0.5`: each entry contributes at most `+1` however many job
tags it matches, the experience bonus is at most `0.5` per job, and a
skill occurring `k` times in the resume list contributes `k` times and
appears `k` times in the matched list. -/
theorem heuristic_score_bound (resumeAnalysis : ResumeAnalysis) (job : Job) :
    (scoreJob resumeAnalysis job).1 ≤ (skillListLength resumeAnalysis : ℚ) + 1 / 2 ∧
      ∀ jskills rskills rs, job.skills = some jskills →
        resumeAnalysis.skills = some rskills →
        (scoreJob resumeAnalysis job).2.count rs =
          if skillMatched jskills rs then rskills.count rs else 0 := by
  constructor
  · rcases hj : job.skills with _ | jskills
    · rw [scoreJob_skillsNone resumeAnalysis job (Or.inl hj)]
      have h0 : (0 : ℚ) ≤ (skillListLength resumeAnalysis : ℚ) := by positivity
      split <;> linarith
    · rcases hr : resumeAnalysis.skills with _ | rskills
      · rw [scoreJob_skillsNone resumeAnalysis job (Or.inr hr)]
        have h0 : (0 : ℚ) ≤ (skillListLength resumeAnalysis : ℚ) := by positivity
        split <;> linarith
      · rw [scoreJob_eq resumeAnalysis job jskills rskills hj hr]
        have h1 : ((rskills.filter (skillMatched jskills)).length : ℚ) ≤
            (skillListLength resumeAnalysis : ℚ) := by
          rw [show skillListLength resumeAnalysis = rskills.length by
            simp [skillListLength, hr]]
          exact_mod_cast List.length_filter_le _ _
        split <;> linarith
  · intro jskills rskills rs hj hr
    rw [scoreJob_eq resumeAnalysis job jskills rskills hj hr]
    by_cases h : skillMatched jskills rs
    · simp [h, List.count_filter]
    · simp only [h, if_false]
      refine List.count_eq_zero.mpr fun hmem => ?_
      exact h ((List.mem_filter.mp hmem).2)

/-- Witness for `heuristic_score_bound` at the scenario input. -/
theorem heuristic_score_bound_check :
    (scoreJob pythonResume pythonJob).2.count "Python".toList =
      if skillMatched pythonJobSkills "Python".toList then
        pythonResumeSkills.count "Python".toList
      else 0 :=
  (heuristic_score_bound pythonResume pythonJob).2 pythonJobSkills pythonResumeSkills
    "Python".toList rfl rfl

/-- C5: with an empty resume skill list every job scores 0 except for the
lone experience bonus of `0.5`, and a job whose score is not positive is
never reported as a match (membership in the result requires score
`> 0`). -/
theorem empty_skills_no_match (resumeId : JStr) (resumeAnalysis : ResumeAnalysis)
    (allJobs : List Job) (db : MatchDB) (h : resumeAnalysis.skills = some []) :
    (∀ job, (scoreJob resumeAnalysis job).1 =
        if expBonus resumeAnalysis job = true then (1 : ℚ) / 2 else 0) ∧
      (∀ e ∈ (matchJobsWithResume resumeId resumeAnalysis allJobs db).1,
        e.score = 1 / 2 ∧ expBonus resumeAnalysis e.job = true) ∧
      ∀ job, expBonus resumeAnalysis job = false →
        ∀ e ∈ (matchJobsWithResume resumeId resumeAnalysis allJobs db).1, e.job ≠ job := by
  have hsc : ∀ job, scoreJob resumeAnalysis job =
      ((if expBonus resumeAnalysis job = true then (1 : ℚ) / 2 else 0), []) := by
    intro job
    rcases hj : job.skills with _ | jskills
    · exact scoreJob_skillsNone resumeAnalysis job (Or.inl hj)
    · rw [scoreJob_eq resumeAnalysis job jskills [] hj h]
      simp
  have hmem : ∀ e ∈ (matchJobsWithResume resumeId resumeAnalysis allJobs db).1,
      e.score = 1 / 2 ∧ expBonus resumeAnalysis e.job = true := by
    intro e he
    rw [matchJobsWithResume_fst] at he
    obtain ⟨j, hj, hpick⟩ := List.mem_filterMap.mp he
    simp only [matchPick, hsc j] at hpick
    by_cases hb : expBonus resumeAnalysis j
    · rw [if_pos hb, if_pos (by norm_num)] at hpick
      obtain rfl := Option.some_inj.mp hpick
      simpa using hb
    · rw [if_neg hb, if_neg (by norm_num)] at hpick
      exact absurd hpick (by simp)
  refine ⟨fun job => by rw [hsc job], hmem, ?_⟩
  intro job hb e he heq
  have := (hmem e he).2
  rw [heq, hb] at this
  exact Bool.false_ne_true this

/-- Witness for `empty_skills_no_match` on a concrete empty-skill
profile. -/
theorem empty_skills_no_match_check :
    (scoreJob emptyAnalysis cJobA).1 =
      if expBonus emptyAnalysis cJobA = true then (1 : ℚ) / 2 else 0 :=
  (empty_skills_no_match [] emptyAnalysis [] ⟨0, []⟩ rfl).1 cJobA

/-! Concrete evaluations of the scorer, used for the route-level
results. -/

theorem score_cJobA : scoreJob cAnalysis cJobA = (1, [['p']]) := by
  have hf : List.filter (skillMatched [['p']]) [['p'], ['q']] = [['p']] := by decide
  have hb : expBonus cAnalysis cJobA = false := by decide
  rw [scoreJob_eq cAnalysis cJobA [['p']] [['p'], ['q']] rfl rfl, hf, hb]
  norm_num

theorem score_cJobB : scoreJob cAnalysis cJobB = (2, [['p'], ['q']]) := by
  have hf : List.filter (skillMatched [['p'], ['q']]) [['p'], ['q']] = [['p'], ['q']] := by
    decide
  have hb : expBonus cAnalysis cJobB = false := by decide
  rw [scoreJob_eq cAnalysis cJobB [['p'], ['q']] [['p'], ['q']] rfl rfl, hf, hb]
  norm_num

theorem score_dupJob : scoreJob dupAnalysis dupJob = (1, [['p']]) := by
  have hf : List.filter (skillMatched [['p']]) [['p']] = [['p']] := by decide
  have hb : expBonus dupAnalysis dupJob = false := by decide
  rw [scoreJob_eq dupAnalysis dupJob [['p']] [['p']] rfl rfl, hf, hb]
  norm_num

/-- C6 counterexample: on stored jobs scoring 1 and 2 in that order, the
match endpoint returns the array with scores `[1, 2]`, which is not
ranked by score descending (and is not truncated): the returned array is
in job iteration order. -/
theorem match_endpoint_not_sorted :
    respScores (matchRoute cRid cLookup cJobs ⟨0, []⟩).1 = [1, 2] ∧
      ¬ List.Pairwise (fun a b : ℚ => b ≤ a)
          (respScores (matchRoute cRid cLookup cJobs ⟨0, []⟩).1) := by
  have hA : matchPick cAnalysis cJobA = some ⟨cJobA, 1, [['p']]⟩ := by
    simp only [matchPick, score_cJobA]
    rw [if_pos (by norm_num)]
  have hB : matchPick cAnalysis cJobB = some ⟨cJobB, 2, [['p'], ['q']]⟩ := by
    simp only [matchPick, score_cJobB]
    rw [if_pos (by norm_num)]
  have hu : isUuidV cRid = true := by decide
  have hl : cLookup cRid = some cResume := by simp [cLookup]
  have hresp : respScores (matchRoute cRid cLookup cJobs ⟨0, []⟩).1 = [1, 2] := by
    simp only [matchRoute, hu, if_true, hl, cResume]
    simp only [respScores, matchJobsWithResume_fst, cJobs, List.filterMap_cons,
      List.filterMap_nil, hA, hB]
    simp
  refine ⟨hresp, ?_⟩
  rw [hresp]
  intro hp
  have h21 := (List.pairwise_cons.mp hp).1 2 (by simp)
  norm_num at h21

/-- C6 (amended): the endpoint returns 400 for a malformed id, 404 when
the resume is absent, 400 when the resume has no analysis, and otherwise
200 with the match array in stored-job iteration order (each job with
score `> 0`), neither sorted by score nor truncated. -/
theorem match_endpoint_statuses (resumeIdRaw : JStr) (lookupResume : JStr → Option Resume)
    (allJobs : List Job) (db : MatchDB) :
    (isUuidV resumeIdRaw = false →
        matchRoute resumeIdRaw lookupResume allJobs db =
          (.badRequest "Invalid resume ID".toList, db)) ∧
      (isUuidV resumeIdRaw = true → lookupResume resumeIdRaw = none →
        matchRoute resumeIdRaw lookupResume allJobs db =
          (.notFound "Resume not found".toList, db)) ∧
      (∀ r, isUuidV resumeIdRaw = true → lookupResume resumeIdRaw = some r →
        r.analysis = none →
        matchRoute resumeIdRaw lookupResume allJobs db =
          (.badRequest "Resume has not been analyzed yet.".toList, db)) ∧
      ∀ r an, isUuidV resumeIdRaw = true → lookupResume resumeIdRaw = some r →
        r.analysis = some an →
        matchRoute resumeIdRaw lookupResume allJobs db =
          (.okJson (allJobs.filterMap (matchPick an)),
            (matchJobsWithResume r.id an allJobs db).2) := by
  refine ⟨fun hu => ?_, fun hu hl => ?_, fun r hu hl ha => ?_, fun r an hu hl ha => ?_⟩
  · simp [matchRoute, hu]
  · simp [matchRoute, hu, hl]
  · simp [matchRoute, hu, hl, ha]
  · simp [matchRoute, hu, hl, ha, matchJobsWithResume_fst]

/-- Witness for `match_endpoint_statuses` on a malformed id. -/
theorem match_endpoint_statuses_check :
    matchRoute ['x'] cLookup cJobs ⟨0, []⟩ =
      (.badRequest "Invalid resume ID".toList, ⟨0, []⟩) :=
  (match_endpoint_statuses ['x'] cLookup cJobs ⟨0, []⟩).1 (by decide)

/-- C2 evidence: the `matches` schema has no uniqueness constraint on
`(resumeId, jobId)`, so `onConflictDoNothing` never fires for that pair
and invoking the heuristic match endpoint twice for the same resume and
job persists two Match rows for the pair, not one. -/
theorem match_insert_duplicates :
    (((matchRoute dRid dLookup [dupJob]
            (matchRoute dRid dLookup [dupJob] ⟨0, []⟩).2).2).rows.filter
        fun r => r.resumeId == dRid && r.jobId == dupJob.id).length = 2 := by
  have h1 : matchJobsWithResume dRid dupAnalysis [dupJob] ⟨0, []⟩ =
      ([⟨dupJob, 1, [['p']]⟩], ⟨1, [⟨0, dRid, ['j'], 1⟩]⟩) := by
    simp only [matchJobsWithResume, List.foldl_cons, List.foldl_nil, matchStep, score_dupJob]
    rw [if_pos (by norm_num)]
    simp [matchesInsertIgnore, dupJob]
  have h2 : matchJobsWithResume dRid dupAnalysis [dupJob] ⟨1, [⟨0, dRid, ['j'], 1⟩]⟩ =
      ([⟨dupJob, 1, [['p']]⟩], ⟨2, [⟨0, dRid, ['j'], 1⟩, ⟨1, dRid, ['j'], 1⟩]⟩) := by
    simp only [matchJobsWithResume, List.foldl_cons, List.foldl_nil, matchStep, score_dupJob]
    rw [if_pos (by norm_num)]
    simp [matchesInsertIgnore, dupJob]
  have hu : isUuidV dRid = true := by decide
  have hl : dLookup dRid = some dupResume := by simp [dLookup]
  have hr1 : matchRoute dRid dLookup [dupJob] ⟨0, []⟩ =
      (.okJson [⟨dupJob, 1, [['p']]⟩], ⟨1, [⟨0, dRid, ['j'], 1⟩]⟩) := by
    simp only [matchRoute, hu, if_true, hl, dupResume, h1]
  have hr2 : matchRoute dRid dLookup [dupJob] ⟨1, [⟨0, dRid, ['j'], 1⟩]⟩ =
      (.okJson [⟨dupJob, 1, [['p']]⟩], ⟨2, [⟨0, dRid, ['j'], 1⟩, ⟨1, dRid, ['j'], 1⟩]⟩) := by
    simp only [matchRoute, hu, if_true, hl, dupResume, h2]
  rw [hr1, hr2]
  decide

/-! Helper lemmas about the recommendation pipeline. -/

theorem mem_candidates_score (parse : JStr → Option CompatibilityResult)
    (llm : RawJob → LLMResponse) (jobs : List RawJob) :
    ∀ r ∈ recommendationCandidates parse llm jobs, (20 : ℚ) ≤ r.compatibilityScore := by
  intro r hr
  obtain ⟨j, hj, heq⟩ := List.mem_filterMap.mp hr
  simp only at heq
  by_cases h : (20 : ℚ) ≤ (analyzeJobCompatibility parse (llm j)).score
  · rw [if_pos h] at heq
    obtain rfl := Option.some_inj.mp heq
    simpa [toRecommendation] using h
  · rw [if_neg h] at heq
    cases heq

theorem mem_generateRec (parse : JStr → Option CompatibilityResult)
    (llm : RawJob → LLMResponse) (jobs : List RawJob) (r : JobRecommendation)
    (hr : r ∈ generateRecommendationsFromJobs parse llm jobs) :
    r ∈ recommendationCandidates parse llm jobs := by
  unfold generateRecommendationsFromJobs at hr
  exact List.mem_mergeSort.mp (List.take_subset _ _ hr)

/-- C3: the recommendation list contains only candidates with LLM score
at least 20 (a candidate enters the candidate list iff its score is at
least 20), is sorted non-increasingly by score, and has length at most
10. -/
theorem recommendations_ranked (parse : JStr → Option CompatibilityResult)
    (llm : RawJob → LLMResponse) (jobs : List RawJob) :
    (∀ r ∈ generateRecommendationsFromJobs parse llm jobs,
        (20 : ℚ) ≤ r.compatibilityScore) ∧
      List.Pairwise (fun a b : JobRecommendation =>
          b.compatibilityScore ≤ a.compatibilityScore)
        (generateRecommendationsFromJobs parse llm jobs) ∧
      (generateRecommendationsFromJobs parse llm jobs).length ≤ 10 ∧
      ∀ j ∈ jobs, ((20 : ℚ) ≤ (analyzeJobCompatibility parse (llm j)).score ↔
        toRecommendation j (analyzeJobCompatibility parse (llm j)) ∈
          recommendationCandidates parse llm jobs) := by
  refine ⟨fun r hr => mem_candidates_score parse llm jobs r
      (mem_generateRec parse llm jobs r hr), ?_, ?_, ?_⟩
  · have htrans : ∀ a b c : JobRecommendation,
        scoreDescBy a b → scoreDescBy b c → scoreDescBy a c := by
      intro a b c hab hbc
      simp only [scoreDescBy, decide_eq_true_eq] at hab hbc ⊢
      exact le_trans hbc hab
    have htotal : ∀ a b : JobRecommendation, scoreDescBy a b || scoreDescBy b a := by
      intro a b
      simp only [scoreDescBy]
      rcases le_total b.compatibilityScore a.compatibilityScore with h | h <;> simp [h]
    have hs := List.sorted_mergeSort htrans htotal (recommendationCandidates parse llm jobs)
    have hp : List.Pairwise (fun a b : JobRecommendation =>
        b.compatibilityScore ≤ a.compatibilityScore)
        ((recommendationCandidates parse llm jobs).mergeSort scoreDescBy) :=
      hs.imp fun h => by simpa [scoreDescBy] using h
    exact hp.sublist (List.take_sublist _ _)
  · simp only [generateRecommendationsFromJobs]
    exact List.length_take_le 10 _
  · intro j hj
    constructor
    · intro h
      exact List.mem_filterMap.mpr ⟨j, hj, by simp only; rw [if_pos h]⟩
    · intro h
      simpa [toRecommendation] using mem_candidates_score parse llm jobs _ h

/-- Witness for `recommendations_ranked` on a singleton candidate list. -/
theorem recommendations_ranked_check :
    (20 : ℚ) ≤ (analyzeJobCompatibility parseNone (llmNetFail sampleRawJob)).score ↔
      toRecommendation sampleRawJob
          (analyzeJobCompatibility parseNone (llmNetFail sampleRawJob)) ∈
        recommendationCandidates parseNone llmNetFail [sampleRawJob] :=
  (recommendations_ranked parseNone llmNetFail [sampleRawJob]).2.2.2 sampleRawJob (by simp)

/-- C4: when the LLM call for a candidate fails (network failure, non-ok
status, or parse failure), `analyzeJobCompatibility` returns exactly the
zero-score "Analysis failed" result, the remaining candidates are
processed as if the failing one were absent, and the failing candidate is
excluded from the final recommendation list. -/
theorem llm_failure_fallback (parse : JStr → Option CompatibilityResult)
    (llm : RawJob → LLMResponse) (j : RawJob) (l1 l2 : List RawJob)
    (h : llmCallFailed parse (llm j) = true) :
    analyzeJobCompatibility parse (llm j) = analysisFailed ∧
      generateRecommendationsFromJobs parse llm (l1 ++ j :: l2) =
        generateRecommendationsFromJobs parse llm (l1 ++ l2) ∧
      toRecommendation j (analyzeJobCompatibility parse (llm j)) ∉
        generateRecommendationsFromJobs parse llm (l1 ++ j :: l2) := by
  have hfail : analyzeJobCompatibility parse (llm j) = analysisFailed := by
    rcases hr : llm j with _ | ⟨status, content⟩
    · simp [analyzeJobCompatibility]
    · rw [hr] at h
      simp only [llmCallFailed] at h
      by_cases hok : responseOk status
      · simp only [hok, Bool.not_true, Bool.false_or] at h
        simp [analyzeJobCompatibility, hok, Option.isNone_iff_eq_none.mp h]
      · simp [analyzeJobCompatibility, hok]
  have hnone : (if (20 : ℚ) ≤ (analyzeJobCompatibility parse (llm j)).score then
      some (toRecommendation j (analyzeJobCompatibility parse (llm j))) else none) = none := by
    rw [hfail, if_neg (by norm_num [analysisFailed])]
  have hcand : recommendationCandidates parse llm (l1 ++ j :: l2) =
      recommendationCandidates parse llm (l1 ++ l2) := by
    simp only [recommendationCandidates, List.filterMap_append, List.filterMap_cons]
    simp only at hnone
    rw [hnone]
  refine ⟨hfail, by simp [generateRecommendationsFromJobs, hcand], fun hmem => ?_⟩
  have h20 := mem_candidates_score parse llm (l1 ++ j :: l2) _
    (mem_generateRec parse llm (l1 ++ j :: l2) _ hmem)
  rw [hfail] at h20
  simp only [toRecommendation, analysisFailed] at h20
  norm_num at h20

/-- Witness for `llm_failure_fallback` on an HTTP 500 response. -/
theorem llm_failure_fallback_check :
    analyzeJobCompatibility parseNone (llm500 sampleRawJob) = analysisFailed ∧
      generateRecommendationsFromJobs parseNone llm500 ([] ++ sampleRawJob :: []) =
        generateRecommendationsFromJobs parseNone llm500 ([] ++ []) ∧
      toRecommendation sampleRawJob
          (analyzeJobCompatibility parseNone (llm500 sampleRawJob)) ∉
        generateRecommendationsFromJobs parseNone llm500 ([] ++ sampleRawJob :: []) :=
  llm_failure_fallback parseNone llm500 sampleRawJob [] [] (by decide)

/-- C9: a missing resume or a resume without an analysis makes the
recommendation pipeline throw "Resume not found or not analyzed" with no
outbound network call issued. -/
theorem recommendation_fail_fast (parse : JStr → Option CompatibilityResult)
    (resumeLookup : Option Resume) (scraped : List RawJob) (llm : RawJob → LLMResponse)
    (h : resumeLookup = none ∨ ∃ r, resumeLookup = some r ∧ r.analysis = none) :
    generateRecommendations parse resumeLookup scraped llm =
      (.error "Resume not found or not analyzed".toList, []) := by
  rcases h with h | ⟨r, hr, ha⟩
  · simp [generateRecommendations, h]
  · simp [generateRecommendations, hr, ha]

/-- Witness for `recommendation_fail_fast` on a missing resume. -/
theorem recommendation_fail_fast_check :
    generateRecommendations parseNone none [] llmNetFail =
      (.error "Resume not found or not analyzed".toList, []) :=
  recommendation_fail_fast parseNone none [] llmNetFail (Or.inl rfl)

/-- C7: a failed adapter fetch (thrown error or rejected call, or non-ok
HTTP status) yields zero results for that source only: the aggregate
result is exactly the other adapter's postings. -/
theorem scrape_isolates_adapter_failures (skills : List JStr)
    (f1 : Fetched (List IndeedElement)) (f2 : Fetched (List RemoteOkEntry)) :
    (fetchFailed f1 = true → scrapeIndeedJobs f1 = [] ∧
        scrapeJobs skills f1 f2 = scrapeRemoteOkJobs skills f2) ∧
      (fetchFailed f2 = true → scrapeRemoteOkJobs skills f2 = [] ∧
        scrapeJobs skills f1 f2 = scrapeIndeedJobs f1) := by
  constructor
  · intro h
    cases f1 with
    | okBody b => simp [fetchFailed] at h
    | netError => simp [scrapeJobs, scrapeIndeedJobs]
    | badStatus => simp [scrapeJobs, scrapeIndeedJobs]
  · intro h
    cases f2 with
    | okBody b => simp [fetchFailed] at h
    | netError => simp [scrapeJobs, scrapeRemoteOkJobs]
    | badStatus => simp [scrapeJobs, scrapeRemoteOkJobs]

/-- Witness for `scrape_isolates_adapter_failures` with the Indeed fetch
failing at the network level. -/
theorem scrape_isolates_check :
    scrapeIndeedJobs (.netError : Fetched (List IndeedElement)) = [] ∧
      scrapeJobs [] .netError (.okBody []) = scrapeRemoteOkJobs [] (.okBody []) :=
  (scrape_isolates_adapter_failures [] .netError (.okBody [])).1 rfl

/-! String lemmas for the code-fence stripping equivalence. -/

theorem dropWhile_cons_false {p : Char → Bool} {c : Char} {l : JStr} (h : p c = false) :
    (c :: l).dropWhile p = c :: l := by
  simp [List.dropWhile_cons, h]

theorem dropWhile_head_false (p : Char → Bool) (l : JStr) :
    ∀ a, (l.dropWhile p).head? = some a → p a = false := by
  induction l with
  | nil => intro a ha; simp at ha
  | cons b t ih =>
    intro a ha
    cases hpb : p b with
    | true => rw [List.dropWhile_cons, if_pos hpb] at ha; exact ih a ha
    | false =>
      rw [List.dropWhile_cons, if_neg (by simp [hpb])] at ha
      simp only [List.head?_cons, Option.some.injEq] at ha
      subst ha
      exact hpb

theorem dropWhile_eq_self_of_heads (p : Char → Bool) (l : JStr)
    (h : ∀ a, l.head? = some a → p a = false) : l.dropWhile p = l := by
  cases l with
  | nil => rfl
  | cons a t => exact dropWhile_cons_false (h a rfl)

theorem dropWhile_idem (p : Char → Bool) (l : JStr) :
    (l.dropWhile p).dropWhile p = l.dropWhile p :=
  dropWhile_eq_self_of_heads p _ (dropWhile_head_false p l)

theorem jsTrim_idem (s : JStr) : jsTrim (jsTrim s) = jsTrim s := by
  unfold jsTrim
  set u := s.dropWhile jsIsWS with hu
  set v := u.reverse.dropWhile jsIsWS with hv
  have h1 : v.reverse.dropWhile jsIsWS = v.reverse := by
    apply dropWhile_eq_self_of_heads
    intro a ha
    obtain ⟨t, ht⟩ := List.dropWhile_suffix (p := jsIsWS) (l := u.reverse)
    rw [← hv] at ht
    have hu2 : u = v.reverse ++ t.reverse := by
      have h3 := congrArg List.reverse ht
      rw [List.reverse_append, List.reverse_reverse] at h3
      exact h3.symm
    have hhead : u.head? = some a := by
      rw [hu2]
      cases hvr : v.reverse with
      | nil => rw [hvr] at ha; simp at ha
      | cons b w =>
        rw [hvr] at ha
        simp only [List.head?_cons, Option.some.injEq] at ha
        subst ha
        simp
    rw [hu] at hhead
    exact dropWhile_head_false jsIsWS s a hhead
  rw [h1, List.reverse_reverse, hv, dropWhile_idem]

theorem isPrefixOf_append_self (p t : JStr) : p.isPrefixOf (p ++ t) = true := by
  induction p with
  | nil => simp [List.isPrefixOf]
  | cons a as ih => simp [List.isPrefixOf, List.cons_append, ih]

theorem isSuffixOf_append_self (s p : JStr) : p.isSuffixOf (s ++ p) = true := by
  simp [List.isSuffixOf, List.reverse_append, isPrefixOf_append_self]

theorem stripLead_append (pre t : JStr) : stripLeadIf pre (pre ++ t) = t := by
  simp [stripLeadIf, isPrefixOf_append_self, List.drop_left]

theorem stripTrail_append (s suf : JStr) : stripTrailIf suf (s ++ suf) = s := by
  rw [stripTrailIf, if_pos (isSuffixOf_append_self s suf)]
  have hlen : (s ++ suf).length - suf.length = s.length := by
    simp [List.length_append]
  rw [hlen, List.take_left]

theorem jsTrim_guard (m : JStr) : jsTrim ('\x60' :: m ++ ['\x60']) = '\x60' :: m ++ ['\x60'] := by
  have hq : jsIsWS '\x60' = false := rfl
  unfold jsTrim
  rw [show ('\x60' :: m ++ ['\x60']) = '\x60' :: (m ++ ['\x60']) from rfl]
  rw [dropWhile_cons_false hq]
  rw [show ('\x60' :: (m ++ ['\x60'])).reverse = '\x60' :: (m.reverse ++ ['\x60']) from by
    simp [List.reverse_cons, List.reverse_append]]
  rw [dropWhile_cons_false hq]
  simp [List.reverse_cons, List.reverse_append]

theorem cleanContent_fenced (s : JStr)
    (h1 : fence.isPrefixOf (s ++ fence) = false) :
    cleanContent (fenceJson ++ s ++ fence) = jsTrim s := by
  have hshape : fenceJson ++ s ++ fence =
      '\x60' :: (('\x60' :: '\x60' :: 'j' :: 's' :: 'o' :: 'n' ::
        (s ++ ['\x60', '\x60'])) ++ ['\x60']) := by
    simp [fenceJson, fence, List.append_assoc]
  have htrim : jsTrim (fenceJson ++ s ++ fence) = fenceJson ++ s ++ fence := by
    rw [hshape]
    exact jsTrim_guard _
  have hne : (fenceJson ++ s ++ fence).isEmpty = false := by
    rw [hshape]
    rfl
  simp only [cleanContent, htrim, hne, Bool.false_eq_true, if_false]
  rw [show fenceJson ++ s ++ fence = fenceJson ++ (s ++ fence) from List.append_assoc _ _ _]
  rw [stripLead_append]
  rw [show stripLeadIf fence (s ++ fence) = s ++ fence from by simp [stripLeadIf, h1]]
  rw [stripTrail_append]

theorem cleanContent_unfenced (s : JStr)
    (h2 : (jsTrim s).isEmpty = false)
    (h3 : fenceJson.isPrefixOf (jsTrim s) = false)
    (h4 : fence.isPrefixOf (jsTrim s) = false)
    (h5 : fence.isSuffixOf (jsTrim s) = false) :
    cleanContent s = jsTrim s := by
  simp only [cleanContent, h2, Bool.false_eq_true, if_false]
  rw [show stripLeadIf fenceJson (jsTrim s) = jsTrim s from by simp [stripLeadIf, h3]]
  rw [show stripLeadIf fence (jsTrim s) = jsTrim s from by simp [stripLeadIf, h4]]
  rw [show stripTrailIf fence (jsTrim s) = jsTrim s from by simp [stripTrailIf, h5]]
  exact jsTrim_idem s

/-- C8: a response whose document is wrapped in ```json ... ``` fencing
parses to the same result as the identical unfenced response, for any
parse function, whenever the document itself does not begin or end with
fence markers. -/
theorem fenced_parse_equiv (parse : JStr → Option CompatibilityResult) (s : JStr)
    (h1 : fence.isPrefixOf (s ++ fence) = false)
    (h2 : (jsTrim s).isEmpty = false)
    (h3 : fenceJson.isPrefixOf (jsTrim s) = false)
    (h4 : fence.isPrefixOf (jsTrim s) = false)
    (h5 : fence.isSuffixOf (jsTrim s) = false) :
    parse (cleanContent (fenceJson ++ s ++ fence)) = parse (cleanContent s) := by
  rw [cleanContent_fenced s h1, cleanContent_unfenced s h2 h3 h4 h5]

/-- Witness for `fenced_parse_equiv` on a concrete JSON document. -/
theorem fenced_parse_equiv_check :
    parseNone (cleanContent (fenceJson ++ sampleDoc ++ fence)) =
      parseNone (cleanContent sampleDoc) :=
  fenced_parse_equiv parseNone sampleDoc (by decide) (by decide) (by decide)
    (by decide) (by decide)

end LockinEdge
